import Mathlib

/-!
Verification of the graftel observability library (Go) against its
natural-language specification.

The development shallowly embeds the parts of the source the claims touch:

* `context.go` — the context-carried tag store (`WithTags`,
  `GetTagsFromContext`, `MergeContextTags`, `ContextLogger.WithTags`).
  Go slices are modelled explicitly as (array id, length, capacity)
  headers over a heap of backing arrays, because `WithTags` uses
  `append(existingTags, tags...)` whose in-place/reallocating behaviour
  is exactly what the immutability claims are about.  `append` reuses
  the backing array when the new length fits the capacity and otherwise
  allocates a fresh array with the usual small-slice doubling growth
  (real Go additionally rounds capacities up to allocator size classes,
  which only makes in-place reuse more frequent).
* `tracing.go` — the span-scoped execution helpers (`WithSpan`).  A span
  is modelled as the ordered trace of operations applied to it; the
  wrapped function `fn` is modelled by its outcome (normal return with
  an optional error, or a panic), and Go's `defer span.End()` is
  modelled by running the end operation on the panic path as well.
* `middleware.go` — the request instrumentation algorithm
  (`shouldSkip`, `HTTPMiddleware`, `GinMiddleware`, `EchoMiddleware`,
  `responseWriter`).  A run produces the span trace, the list of metric
  records, the list of log lines, and the response forwarded to the
  client.  Elapsed wall-clock time is an external input (`durationMs`).

Attribute values (`attribute.KeyValue`) are opaque to every operation
studied here, so they are modelled as string key/value pairs; integer
attribute values are embedded via their decimal rendering.
-/

namespace Graftel

/-- `attribute.KeyValue`: an opaque (key, value) tag. -/
structure KeyValue where
  key : String
  value : String
deriving DecidableEq, Repr

/-- Zero value used for not-yet-written cells of a backing array. -/
def KeyValue.zero : KeyValue := ⟨"", ""⟩

/-- A Go slice header: backing-array id, length, capacity.
All slices in `context.go` start at offset 0 of their array. -/
structure GoSlice where
  arrId : Nat
  len : Nat
  cap : Nat
deriving DecidableEq, Repr

/-- The heap of backing arrays; an array is a list of cells whose
length is the array's allocated size. -/
abbrev Heap := List (List KeyValue)

/-- Read a backing array (empty for a dangling id). -/
def Heap.readArr (h : Heap) (i : Nat) : List KeyValue := h.getD i []

/-- Overwrite consecutive cells of an array starting at index `i`. -/
def writeAt {α : Type} (l : List α) (i : Nat) (xs : List α) : List α :=
  match xs with
  | [] => l
  | x :: rest => writeAt (l.set i x) (i + 1) rest

/-- Go `growslice` capacity for small slices: double the old capacity,
or take the required length when doubling is not enough. -/
def growCap (oldCap newLen : Nat) : Nat :=
  if newLen > 2 * oldCap then newLen else 2 * oldCap

/-- Go `append(s, xs...)`: if the result fits the capacity the backing
array is extended in place (aliasing every header that shares it);
otherwise a fresh array is allocated and the live prefix copied. -/
def appendSlice (h : Heap) (s : GoSlice) (xs : List KeyValue) : Heap × GoSlice :=
  if xs.length = 0 then (h, s)
  else if s.len + xs.length ≤ s.cap then
    let arr := h.readArr s.arrId
    (h.set s.arrId (writeAt arr s.len xs), ⟨s.arrId, s.len + xs.length, s.cap⟩)
  else
    let newCap := growCap s.cap (s.len + xs.length)
    let content := (h.readArr s.arrId).take s.len ++ xs
    let arr := content ++ List.replicate (newCap - content.length) KeyValue.zero
    (h ++ [arr], ⟨h.length, s.len + xs.length, newCap⟩)

/-- The `nil` slice header (length and capacity 0). -/
def nilSlice : GoSlice := ⟨0, 0, 0⟩

/-- A `context.Context`, restricted to the single key
`graftel.tags` used by `context.go`.  `context.WithValue` itself is
immutable, so a context is just the optional stored slice header. -/
structure Ctx where
  tags : Option GoSlice
deriving DecidableEq, Repr

/-- The slice header `GetTagsFromContext` returns (`nil` when the key
is absent or holds no slice). -/
def getTagsHeader (c : Ctx) : GoSlice := c.tags.getD nilSlice

/-- The elements a slice header denotes, read from the heap. -/
def sliceVals (h : Heap) (s : GoSlice) : List KeyValue :=
  (h.readArr s.arrId).take s.len

/-- The tag sequence observed by iterating the slice
`GetTagsFromContext(ctx)` at heap state `h`. -/
def getTagsVals (h : Heap) (c : Ctx) : List KeyValue :=
  sliceVals h (getTagsHeader c)

/-- `WithTags(ctx, tags...)`: read the existing header, Go-`append` the
new tags, store the resulting header under the tags key. -/
def WithTags (h : Heap) (c : Ctx) (ts : List KeyValue) : Heap × Ctx :=
  let hs := appendSlice h (getTagsHeader c) ts
  (hs.1, ⟨some hs.2⟩)

/-- `MergeContextTags(ctx, additionalTags...)`: allocate a fresh array
with `make(..., 0, len(existing)+len(additional))`, then `append` the
existing tags and the new tags into it. -/
def MergeContextTags (h : Heap) (c : Ctx) (ts : List KeyValue) : Heap × Ctx :=
  let existing := getTagsVals h c
  let n := existing.length + ts.length
  let h1 : Heap := h ++ [List.replicate n KeyValue.zero]
  let s0 : GoSlice := ⟨h.length, 0, n⟩
  let hs1 := appendSlice h1 s0 existing
  let hs2 := appendSlice hs1.1 hs1.2 ts
  (hs2.1, ⟨some hs2.2⟩)

/-- The struct a `*ContextLogger` points to (the logging capability is
opaque and identified by a number). -/
structure ContextLoggerState where
  loggerId : Nat
  ctx : Ctx
deriving DecidableEq, Repr

/-- `(cl *ContextLogger) WithTags(tags...)`: assigns
`cl.ctx = WithTags(cl.ctx, tags...)` on the receiver and returns the
same pointer, so the resulting state is the state of the original
logger as well as of the returned one. -/
def contextLoggerWithTags (h : Heap) (cl : ContextLoggerState)
    (ts : List KeyValue) : Heap × ContextLoggerState :=
  let hc := WithTags h cl.ctx ts
  (hc.1, { cl with ctx := hc.2 })

/-- Well-formedness of a slice header over a heap: the length fits the
capacity and the capacity fits the backing array.  The `nil` slice is
well-formed over every heap. -/
def WfSlice (h : Heap) (s : GoSlice) : Prop :=
  s.len ≤ s.cap ∧ s.cap ≤ (h.readArr s.arrId).length

/-- Well-formedness of the tag store of a context. -/
def WfCtx (h : Heap) (c : Ctx) : Prop :=
  WfSlice h (getTagsHeader c)

instance (h : Heap) (s : GoSlice) : Decidable (WfSlice h s) := by
  unfold WfSlice; infer_instance

instance (h : Heap) (c : Ctx) : Decidable (WfCtx h c) := by
  unfold WfCtx; infer_instance

/-! ## Spans (`tracing.go`) -/

/-- `codes.Code` from the OpenTelemetry API. -/
inductive OtelCode where
  | unset
  | error
  | ok
deriving DecidableEq, Repr

/-- One call applied to a span handle after it is started. -/
inductive SpanOp where
  | setAttrs (ts : List KeyValue)
  | setStatus (code : OtelCode) (descr : String)
  | recordError (msg : String)
  | endOp
deriving DecidableEq, Repr

/-- A span: its name, the attributes given at start, and the ordered
trace of operations applied to the handle afterwards. -/
structure SpanState where
  name : String
  startAttrs : List KeyValue
  ops : List SpanOp
deriving DecidableEq, Repr

/-- `tracer.Start(ctx, name, WithAttributes(attrs))`. -/
def SpanState.start (name : String) (attrs : List KeyValue) : SpanState :=
  ⟨name, attrs, []⟩

/-- `span.SetAttributes(ts...)`. -/
def SpanState.setAttributes (s : SpanState) (ts : List KeyValue) : SpanState :=
  { s with ops := s.ops ++ [.setAttrs ts] }

/-- `span.SetStatus(code, descr)`. -/
def SpanState.setStatus (s : SpanState) (c : OtelCode) (d : String) : SpanState :=
  { s with ops := s.ops ++ [.setStatus c d] }

/-- `span.RecordError(err)` (the error is carried by its message). -/
def SpanState.recordError (s : SpanState) (m : String) : SpanState :=
  { s with ops := s.ops ++ [.recordError m] }

/-- `span.End()`. -/
def SpanState.endSpan (s : SpanState) : SpanState :=
  { s with ops := s.ops ++ [.endOp] }

/-- How many times `End` was called on the span. -/
def SpanState.endCount (s : SpanState) : Nat :=
  s.ops.count SpanOp.endOp

/-- All `SetStatus` calls, in order. -/
def SpanState.statusTrace (s : SpanState) : List (OtelCode × String) :=
  s.ops.filterMap fun op =>
    match op with
    | .setStatus c d => some (c, d)
    | _ => none

/-- The last status set on the span. -/
def SpanState.finalStatus (s : SpanState) : Option (OtelCode × String) :=
  s.statusTrace.getLast?

/-- All errors recorded on the span, in order. -/
def SpanState.recordedErrors (s : SpanState) : List String :=
  s.ops.filterMap fun op =>
    match op with
    | .recordError m => some m
    | _ => none

/-- The span was ended exactly once, and only after every other
operation applied to it. -/
def SpanState.endedOnceLast (s : SpanState) : Prop :=
  s.endCount = 1 ∧ s.ops.getLast? = some SpanOp.endOp

instance (s : SpanState) : Decidable s.endedOnceLast := by
  unfold SpanState.endedOnceLast; infer_instance

/-- How a call into user code leaves the callee: a normal return
carrying `ε`, or a panic unwinding through the caller. -/
inductive Outcome (ε : Type) where
  | ret (e : ε)
  | panicked
deriving DecidableEq, Repr

/-- `StartSpanWithTags`: start the span, then `SetAttributes(tags...)`
when the tag list is non-empty. -/
def startSpanWithTags (name : String) (tags : List KeyValue) : SpanState :=
  let span := SpanState.start name []
  if tags.length > 0 then span.setAttributes tags else span

/-- `(t *tracingHelper) WithSpan(ctx, name, fn, tags...)`: start a span
with the tags, `defer span.End()`, run `fn` (modelled by its outcome);
on a non-nil error record it, set status Error with the error's
message and return the error; on nil set status Ok and return nil.
The deferred `End` also runs when `fn` panics. -/
def helperWithSpan (name : String) (tags : List KeyValue)
    (fnOutcome : Outcome (Option String)) : SpanState × Outcome (Option String) :=
  let span := startSpanWithTags name tags
  match fnOutcome with
  | .panicked => (span.endSpan, .panicked)
  | .ret (some e) =>
      (((span.recordError e).setStatus .error e).endSpan, .ret (some e))
  | .ret none => ((span.setStatus .ok "").endSpan, .ret none)

/-- Package-level `StartSpan`: start from the context's tracer
provider, then `SetAttributes(tags...)` when non-empty — the same
span-visible behaviour as `StartSpanWithTags`. -/
def packageStartSpan (name : String) (tags : List KeyValue) : SpanState :=
  let span := SpanState.start name []
  if tags.length > 0 then span.setAttributes tags else span

/-- Package-level `WithSpan(ctx, name, fn, tags...)` — textually the
same control flow as the helper method. -/
def packageWithSpan (name : String) (tags : List KeyValue)
    (fnOutcome : Outcome (Option String)) : SpanState × Outcome (Option String) :=
  let span := packageStartSpan name tags
  match fnOutcome with
  | .panicked => (span.endSpan, .panicked)
  | .ret (some e) =>
      (((span.recordError e).setStatus .error e).endSpan, .ret (some e))
  | .ret none => ((span.setStatus .ok "").endSpan, .ret none)

/-! ## Request instrumentation (`middleware.go`) -/

/-- `MiddlewareConfig`. -/
structure MiddlewareConfig where
  serviceName : String
  skipPaths : List String
  recordRequestBody : Bool
  recordResponseBody : Bool
  maxBodySize : Int
deriving DecidableEq, Repr

/-- `DefaultMiddlewareConfig`. -/
def DefaultMiddlewareConfig (serviceName : String) : MiddlewareConfig :=
  ⟨serviceName, ["/health", "/metrics", "/ready"], false, false, 4096⟩

/-- `shouldSkip(path, skipPaths)`: linear scan for an exact string
match. -/
def shouldSkip (path : String) (skipPaths : List String) : Bool :=
  skipPaths.any fun skip => path == skip

/-- The request fields the middleware reads. `contentLength` mirrors
`http.Request.ContentLength` (`-1` means unknown). -/
structure Request where
  method : String
  urlStr : String
  path : String
  userAgent : String
  remoteAddr : String
  contentLength : Int
deriving DecidableEq, Repr

/-- A call the downstream handler makes on its `http.ResponseWriter`. -/
inductive WriterOp where
  | writeHeader (code : Nat)
  | write (bytes : List Nat)
deriving DecidableEq, Repr

/-- The `responseWriter` wrapper state: last status code written (the
wrapper is initialised with `http.StatusOK`) and cumulative bytes
written. -/
structure RespWriter where
  statusCode : Nat
  responseSize : Nat
deriving DecidableEq, Repr

/-- `WriteHeader` stores the code; `Write` adds `len(b)`; both forward
to the wrapped writer. -/
def applyWriterOp (w : RespWriter) : WriterOp → RespWriter
  | .writeHeader code => { w with statusCode := code }
  | .write b => { w with responseSize := w.responseSize + b.length }

/-- A downstream `http.Handler`, modelled by the writer calls it makes
and how it exits. -/
structure HandlerBehavior where
  ops : List WriterOp
  outcome : Outcome Unit
deriving DecidableEq, Repr

/-- One value recorded into a counter or histogram, with its
per-record attributes.  Sizes and counts are integers; the elapsed
time recorded by the duration histogram is the external input
`durationMs`. -/
structure MetricEvent where
  name : String
  value : Int
  attrs : List KeyValue
deriving DecidableEq, Repr

/-- One log line emitted through the contextual logger: the message
and the effective tags (context tags ++ call-site tags). -/
structure LogEvent where
  msg : String
  tags : List KeyValue
deriving DecidableEq, Repr

/-- Everything one `HTTPMiddleware` request run produces:
the span (absent when skipped), metric records, log lines, whether the
downstream handler ran, the wrapper state it left (absent when
skipped: the raw writer is passed through), the writer calls forwarded
to the client, and how the run exits. -/
structure MwResult where
  span : Option SpanState
  metrics : List MetricEvent
  logs : List LogEvent
  handlerExecuted : Bool
  wrapper : Option RespWriter
  clientOps : List WriterOp
  outcome : Outcome Unit
deriving DecidableEq, Repr

/-- `HTTPMiddleware`, one request: skip-path check, span open with
request attributes, context tags, request-size metric, entry log,
wrapped handler call, then status/duration annotation, response-size
metric, counter, duration histogram, exit log, `span.End()`.
`span.End()` is not deferred, so nothing after the handler call runs
when the handler panics. -/
def runHTTPMiddleware (config : MiddlewareConfig) (r : Request)
    (handler : HandlerBehavior) (durationMs : Int) : MwResult :=
  if shouldSkip r.path config.skipPaths then
    { span := none, metrics := [], logs := [], handlerExecuted := true,
      wrapper := none, clientOps := handler.ops, outcome := handler.outcome }
  else
    let span := SpanState.start "http.request"
      [⟨"http.method", r.method⟩, ⟨"http.url", r.urlStr⟩,
       ⟨"http.route", r.path⟩, ⟨"http.user_agent", r.userAgent⟩,
       ⟨"http.client_ip", r.remoteAddr⟩]
    let ctxTags : List KeyValue :=
      [⟨"http.method", r.method⟩, ⟨"http.path", r.path⟩,
       ⟨"http.user_agent", r.userAgent⟩, ⟨"http.remote_addr", r.remoteAddr⟩]
    let metrics1 : List MetricEvent :=
      if r.contentLength > 0 then
        [⟨"http_request_size_bytes", r.contentLength,
          [⟨"method", r.method⟩, ⟨"path", r.path⟩]⟩]
      else []
    let logs1 : List LogEvent :=
      [⟨"Requisição recebida",
        ctxTags ++ [⟨"method", r.method⟩, ⟨"path", r.path⟩]⟩]
    let ww := handler.ops.foldl applyWriterOp ⟨200, 0⟩
    match handler.outcome with
    | .panicked =>
      { span := some span, metrics := metrics1, logs := logs1,
        handlerExecuted := true, wrapper := some ww,
        clientOps := handler.ops, outcome := .panicked }
    | .ret _ =>
      let statusCode := ww.statusCode
      let span := span.setAttributes
        [⟨"http.status_code", toString statusCode⟩,
         ⟨"http.duration_ms", toString durationMs⟩]
      let span :=
        if 400 ≤ statusCode then
          span.setStatus .error ("HTTP " ++ toString statusCode)
        else
          span.setStatus .ok ""
      let statusAttrs : List KeyValue :=
        [⟨"method", r.method⟩, ⟨"path", r.path⟩,
         ⟨"status", toString statusCode⟩]
      let metrics2 :=
        if (ww.responseSize : Int) > 0 then
          metrics1 ++ [⟨"http_response_size_bytes", (ww.responseSize : Int),
            statusAttrs⟩]
        else metrics1
      let metrics3 := metrics2 ++
        [⟨"http_requests_total", 1, statusAttrs⟩,
         ⟨"http_request_duration_seconds", durationMs, statusAttrs⟩]
      let logs2 := logs1 ++
        [⟨"Requisição finalizada",
          ctxTags ++ [⟨"method", r.method⟩, ⟨"path", r.path⟩,
            ⟨"status", toString statusCode⟩,
            ⟨"duration_ms", toString durationMs⟩]⟩]
      { span := some span.endSpan, metrics := metrics3, logs := logs2,
        handlerExecuted := true, wrapper := some ww,
        clientOps := handler.ops, outcome := .ret () }

/-- A Gin handler, modelled by the final `c.Writer.Status()` and
`c.Writer.Size()` the middleware reads after `c.Next()`. -/
structure GinHandlerBehavior where
  status : Nat
  size : Int
deriving DecidableEq, Repr

/-- What one `GinMiddleware` request run produces. -/
structure GinResult where
  span : Option SpanState
  metrics : List MetricEvent
  logs : List LogEvent
deriving DecidableEq, Repr

/-- `GinMiddleware`, one request (`c.FullPath()` is modelled by
`r.path`, `c.ClientIP()` by `r.remoteAddr`). -/
def runGinMiddleware (config : MiddlewareConfig) (r : Request)
    (handler : GinHandlerBehavior) (durationMs : Int) : GinResult :=
  if shouldSkip r.path config.skipPaths then
    ⟨none, [], []⟩
  else
    let span := SpanState.start "http.request"
      [⟨"http.method", r.method⟩, ⟨"http.url", r.urlStr⟩,
       ⟨"http.route", r.path⟩, ⟨"http.user_agent", r.userAgent⟩,
       ⟨"http.client_ip", r.remoteAddr⟩]
    let ctxTags : List KeyValue :=
      [⟨"http.method", r.method⟩, ⟨"http.path", r.path⟩,
       ⟨"http.user_agent", r.userAgent⟩, ⟨"http.client_ip", r.remoteAddr⟩]
    let metrics1 : List MetricEvent :=
      if r.contentLength > 0 then
        [⟨"http_request_size_bytes", r.contentLength,
          [⟨"method", r.method⟩, ⟨"path", r.path⟩]⟩]
      else []
    let logs1 : List LogEvent :=
      [⟨"Requisição recebida",
        ctxTags ++ [⟨"method", r.method⟩, ⟨"path", r.path⟩]⟩]
    let statusCode := handler.status
    let span := span.setAttributes
      [⟨"http.status_code", toString statusCode⟩,
       ⟨"http.duration_ms", toString durationMs⟩]
    let span :=
      if 400 ≤ statusCode then
        span.setStatus .error ("HTTP " ++ toString statusCode)
      else
        span.setStatus .ok ""
    let statusAttrs : List KeyValue :=
      [⟨"method", r.method⟩, ⟨"path", r.path⟩,
       ⟨"status", toString statusCode⟩]
    let metrics2 :=
      if handler.size > 0 then
        metrics1 ++ [⟨"http_response_size_bytes", handler.size, statusAttrs⟩]
      else metrics1
    let metrics3 := metrics2 ++
      [⟨"http_requests_total", 1, statusAttrs⟩,
       ⟨"http_request_duration_seconds", durationMs, statusAttrs⟩]
    let logs2 := logs1 ++
      [⟨"Requisição finalizada",
        ctxTags ++ [⟨"method", r.method⟩, ⟨"path", r.path⟩,
          ⟨"status", toString statusCode⟩,
          ⟨"duration_ms", toString durationMs⟩]⟩]
    ⟨some span.endSpan, metrics3, logs2⟩

/-- An Echo handler, modelled by the final `c.Response().Status` and
`c.Response().Size` and the error it returns from `next(c)`. -/
structure EchoHandlerBehavior where
  status : Nat
  size : Int
  err : Option String
deriving DecidableEq, Repr

/-- What one `EchoMiddleware` request run produces, including the
error value the middleware returns to its caller. -/
structure EchoResult where
  span : Option SpanState
  metrics : List MetricEvent
  logs : List LogEvent
  returned : Option String
deriving DecidableEq, Repr

/-- `EchoMiddleware`, one request (`c.Path()` is modelled by `r.path`,
`c.RealIP()` by `r.remoteAddr`).  After `err := next(c)`: status
Error (with the `HTTP <code>` message) when the status code is ≥ 400
or `err` is non-nil, recording the error when non-nil; status Ok
otherwise; the run always returns `err` unchanged. -/
def runEchoMiddleware (config : MiddlewareConfig) (r : Request)
    (handler : EchoHandlerBehavior) (durationMs : Int) : EchoResult :=
  if shouldSkip r.path config.skipPaths then
    ⟨none, [], [], handler.err⟩
  else
    let span := SpanState.start "http.request"
      [⟨"http.method", r.method⟩, ⟨"http.url", r.urlStr⟩,
       ⟨"http.route", r.path⟩, ⟨"http.user_agent", r.userAgent⟩,
       ⟨"http.client_ip", r.remoteAddr⟩]
    let ctxTags : List KeyValue :=
      [⟨"http.method", r.method⟩, ⟨"http.path", r.path⟩,
       ⟨"http.user_agent", r.userAgent⟩, ⟨"http.client_ip", r.remoteAddr⟩]
    let metrics1 : List MetricEvent :=
      if r.contentLength > 0 then
        [⟨"http_request_size_bytes", r.contentLength,
          [⟨"method", r.method⟩, ⟨"path", r.path⟩]⟩]
      else []
    let logs1 : List LogEvent :=
      [⟨"Requisição recebida",
        ctxTags ++ [⟨"method", r.method⟩, ⟨"path", r.path⟩]⟩]
    let err := handler.err
    let statusCode := handler.status
    let span := span.setAttributes
      [⟨"http.status_code", toString statusCode⟩,
       ⟨"http.duration_ms", toString durationMs⟩]
    let span :=
      if 400 ≤ statusCode ∨ err ≠ none then
        let span := span.setStatus .error ("HTTP " ++ toString statusCode)
        match err with
        | some e => span.recordError e
        | none => span
      else
        span.setStatus .ok ""
    let statusAttrs : List KeyValue :=
      [⟨"method", r.method⟩, ⟨"path", r.path⟩,
       ⟨"status", toString statusCode⟩]
    let metrics2 :=
      if handler.size > 0 then
        metrics1 ++ [⟨"http_response_size_bytes", handler.size, statusAttrs⟩]
      else metrics1
    let metrics3 := metrics2 ++
      [⟨"http_requests_total", 1, statusAttrs⟩,
       ⟨"http_request_duration_seconds", durationMs, statusAttrs⟩]
    let logs2 := logs1 ++
      [⟨"Requisição finalizada",
        ctxTags ++ [⟨"method", r.method⟩, ⟨"path", r.path⟩,
          ⟨"status", toString statusCode⟩,
          ⟨"duration_ms", toString durationMs⟩]⟩]
    ⟨some span.endSpan, metrics3, logs2, err⟩

/-! ## Slice lemmas -/

lemma writeAt_length {α : Type} (xs : List α) (l : List α) (i : Nat) :
    (writeAt l i xs).length = l.length := by
  induction xs generalizing l i with
  | nil => rfl
  | cons x rest ih => simp [writeAt, ih]

lemma take_set_succ {α : Type} (l : List α) (i : Nat) (x : α)
    (h : i < l.length) : (l.set i x).take (i + 1) = l.take i ++ [x] := by
  induction l generalizing i with
  | nil => simp at h
  | cons a tl ih =>
    cases i with
    | zero => simp
    | succ n =>
      simp only [List.set, List.take, List.cons_append]
      have hn : n < tl.length := by simpa using h
      rw [ih n hn]

lemma writeAt_take {α : Type} (xs : List α) (l : List α) (i : Nat)
    (h : i + xs.length ≤ l.length) :
    (writeAt l i xs).take (i + xs.length) = l.take i ++ xs := by
  induction xs generalizing l i with
  | nil => simp [writeAt]
  | cons x rest ih =>
    have hlen : i + (x :: rest).length = (i + 1) + rest.length := by
      simp [List.length_cons]; omega
    rw [hlen]
    show (writeAt (l.set i x) (i + 1) rest).take ((i + 1) + rest.length) =
      l.take i ++ x :: rest
    have hfit : (i + 1) + rest.length ≤ (l.set i x).length := by
      simp only [List.length_set]
      simp [List.length_cons] at h; omega
    rw [ih (l.set i x) (i + 1) hfit]
    have hi : i < l.length := by
      simp [List.length_cons] at h; omega
    rw [take_set_succ l i x hi]
    simp

lemma getD_set_self {α : Type} (l : List α) (i : Nat) (x d : α)
    (h : i < l.length) : (l.set i x).getD i d = x := by
  induction l generalizing i with
  | nil => simp at h
  | cons a tl ih =>
    cases i with
    | zero => simp [List.getD]
    | succ n =>
      have hn : n < tl.length := by simpa using h
      simpa using ih n hn

lemma getD_append_length {α : Type} (l : List α) (x d : α) :
    (l ++ [x]).getD l.length d = x := by
  induction l with
  | nil => simp [List.getD]
  | cons a tl ih => simp

lemma getD_of_length_le {α : Type} (l : List α) (i : Nat) (d : α)
    (h : l.length ≤ i) : l.getD i d = d := by
  induction l generalizing i with
  | nil => simp [List.getD]
  | cons a tl ih =>
    cases i with
    | zero => simp at h
    | succ n =>
      have hn : tl.length ≤ n := by simpa using h
      simpa [List.getD] using ih n hn

lemma readArr_set_self (h : Heap) (i : Nat) (x : List KeyValue)
    (hlt : i < h.length) : Heap.readArr (h.set i x) i = x :=
  getD_set_self h i x [] hlt

lemma readArr_append_last (h : Heap) (x : List KeyValue) :
    Heap.readArr (h ++ [x]) h.length = x :=
  getD_append_length h x []

/-- In the in-place branch of `appendSlice` the backing array id is a
live heap index (a dangling id would force capacity 0). -/
lemma fits_arrId_lt (h : Heap) (s : GoSlice) (xs : List KeyValue)
    (hwf : WfSlice h s) (hne : xs.length ≠ 0)
    (hfit : s.len + xs.length ≤ s.cap) : s.arrId < h.length := by
  by_contra hge
  have hnil : h.readArr s.arrId = [] :=
    getD_of_length_le h s.arrId [] (by omega)
  have h2 := hwf.2
  rw [hnil] at h2
  simp at h2
  omega

/-- `append` extends the denoted element sequence by the appended
elements. -/
lemma appendSlice_vals (h : Heap) (s : GoSlice) (xs : List KeyValue)
    (hwf : WfSlice h s) :
    sliceVals (appendSlice h s xs).1 (appendSlice h s xs).2 =
      sliceVals h s ++ xs := by
  unfold appendSlice
  by_cases h0 : xs.length = 0
  · have hxs : xs = [] := List.length_eq_zero.mp h0
    simp [h0, hxs]
  · by_cases hfit : s.len + xs.length ≤ s.cap
    · have hid : s.arrId < h.length := fits_arrId_lt h s xs hwf h0 hfit
      have harr : s.len + xs.length ≤ (h.readArr s.arrId).length := by
        have := hwf.2; omega
      simp only [h0, hfit, if_true, if_false, if_neg, if_pos]
      simp only [sliceVals, Heap.readArr]
      rw [getD_set_self h s.arrId _ [] hid]
      rw [writeAt_take xs (List.getD h s.arrId []) s.len harr]
    · simp only [h0, hfit, if_false, if_neg, if_pos]
      simp only [sliceVals, Heap.readArr]
      rw [getD_append_length]
      have hcl : (List.take s.len (List.getD h s.arrId []) ++ xs).length =
          s.len + xs.length := by
        have hole : (List.take s.len (List.getD h s.arrId [])).length = s.len := by
          rw [List.length_take]
          exact Nat.min_eq_left (le_trans hwf.1 hwf.2)
        rw [List.length_append, hole]
      rw [List.take_append_eq_append_take, hcl, Nat.sub_self]
      simp [List.take_of_length_le (Nat.le_of_eq hcl)]

/-- `append` preserves slice well-formedness. -/
lemma appendSlice_wf (h : Heap) (s : GoSlice) (xs : List KeyValue)
    (hwf : WfSlice h s) :
    WfSlice (appendSlice h s xs).1 (appendSlice h s xs).2 := by
  unfold appendSlice
  by_cases h0 : xs.length = 0
  · simpa [h0] using hwf
  · by_cases hfit : s.len + xs.length ≤ s.cap
    · have hid : s.arrId < h.length := fits_arrId_lt h s xs hwf h0 hfit
      simp only [h0, hfit, if_true, if_false, if_neg, if_pos]
      refine ⟨hfit, ?_⟩
      show s.cap ≤
        (Heap.readArr (h.set s.arrId (writeAt (Heap.readArr h s.arrId) s.len xs)) s.arrId).length
      rw [readArr_set_self h s.arrId _ hid, writeAt_length]
      exact hwf.2
    · simp only [h0, hfit, if_false, if_neg, if_pos]
      have hgrow : s.len + xs.length ≤ growCap s.cap (s.len + xs.length) := by
        unfold growCap
        by_cases hc : s.len + xs.length > 2 * s.cap
        · simp [hc]
        · simp [hc]; omega
      refine ⟨hgrow, ?_⟩
      rw [readArr_append_last]
      have hole : (List.take s.len (h.readArr s.arrId)).length = s.len := by
        rw [List.length_take]
        exact Nat.min_eq_left (le_trans hwf.1 hwf.2)
      simp only [List.length_append, List.length_replicate, hole]
      omega

/-- `WithTags` preserves well-formedness of the stored tag slice. -/
lemma withTags_wf (h : Heap) (c : Ctx) (ts : List KeyValue)
    (hwf : WfCtx h c) :
    WfCtx (WithTags h c ts).1 (WithTags h c ts).2 := by
  unfold WithTags WfCtx
  simpa [getTagsHeader] using appendSlice_wf h (getTagsHeader c) ts hwf

/-- The tag sequence observed after `WithTags` is the previous sequence
followed by the appended tags (read on the heap `WithTags` returns). -/
lemma withTags_vals (h : Heap) (c : Ctx) (ts : List KeyValue)
    (hwf : WfCtx h c) :
    getTagsVals (WithTags h c ts).1 (WithTags h c ts).2 =
      getTagsVals h c ++ ts := by
  unfold WithTags getTagsVals
  simpa [getTagsHeader] using appendSlice_vals h (getTagsHeader c) ts hwf

/-- The tag sequence observed after `MergeContextTags` is the previous
sequence followed by the added tags (no well-formedness needed: the
merged store lives in a freshly allocated exactly-sized array). -/
lemma mergeContextTags_vals (h : Heap) (c : Ctx) (ts : List KeyValue) :
    getTagsVals (MergeContextTags h c ts).1 (MergeContextTags h c ts).2 =
      getTagsVals h c ++ ts := by
  unfold MergeContextTags
  have hwf0 : WfSlice (h ++ [List.replicate ((getTagsVals h c).length + ts.length) KeyValue.zero])
      ⟨h.length, 0, (getTagsVals h c).length + ts.length⟩ := by
    constructor
    · exact Nat.zero_le _
    · rw [readArr_append_last]
      simp
  have hv0 : sliceVals (h ++ [List.replicate ((getTagsVals h c).length + ts.length) KeyValue.zero])
      ⟨h.length, 0, (getTagsVals h c).length + ts.length⟩ = [] := by
    simp [sliceVals]
  have h1 := appendSlice_vals _ _ (getTagsVals h c) hwf0
  have hw1 := appendSlice_wf _ _ (getTagsVals h c) hwf0
  rw [hv0] at h1
  have h2 := appendSlice_vals _ _ ts hw1
  rw [h1] at h2
  simpa [getTagsVals, getTagsHeader] using h2

/-! ## Claims about the tag store -/

/-- Concrete tag used by the sibling-aliasing scenario. -/
def aliasT (k : String) : KeyValue := ⟨k, "v"⟩

/-- Root: empty heap, context without the tags key. -/
def aliasSt0 : Heap × Ctx := ([], ⟨none⟩)

def aliasSt1 : Heap × Ctx := WithTags aliasSt0.1 aliasSt0.2 [aliasT "t1"]

def aliasSt2 : Heap × Ctx := WithTags aliasSt1.1 aliasSt1.2 [aliasT "t2"]

/-- Parent context: three successive single-tag `WithTags` calls leave
a stored slice of length 3 over a backing array of capacity 4. -/
def aliasSt3 : Heap × Ctx := WithTags aliasSt2.1 aliasSt2.2 [aliasT "t3"]

/-- First sibling: appends tag `a` to the parent (in place, spare
capacity). -/
def aliasStA : Heap × Ctx := WithTags aliasSt3.1 aliasSt3.2 [aliasT "a"]

/-- Second sibling: appends tag `b` to the same parent afterwards,
overwriting the shared backing-array cell that held `a`. -/
def aliasStB : Heap × Ctx := WithTags aliasStA.1 aliasSt3.2 [aliasT "b"]

/-- Claim C1 (code_bug): the claim demands that two contexts derived
from the same parent by separate `WithTags` calls each report only
their own additions, never the sibling's — and the spec's Tag Store
invariant demands that an append never mutates a previously obtained
store.  `WithTags` uses Go `append` on the stored slice, so when the
parent's backing array has spare capacity the two siblings share it:
after the second sibling appends `b`, the first sibling's
`GetTagsFromContext` reports `b` — the sibling's addition — in place
of its own `a`.  (The parent context itself still reports its prior
three tags.)  The heap state arises from the repository's own
operations alone, starting from an empty context. -/
theorem C1_withTags_sibling_aliasing :
    getTagsVals aliasStB.1 aliasStA.2 =
      [aliasT "t1", aliasT "t2", aliasT "t3", aliasT "b"] ∧
    getTagsVals aliasStB.1 aliasStB.2 =
      [aliasT "t1", aliasT "t2", aliasT "t3", aliasT "b"] ∧
    getTagsVals aliasStB.1 aliasSt3.2 =
      [aliasT "t1", aliasT "t2", aliasT "t3"] ∧
    aliasT "a" ≠ aliasT "b" :=
  ⟨rfl, rfl, rfl, by decide⟩

/-- Claim C8 (counterexample): `ContextLogger.WithTags` assigns the
extended context to the receiver's own `ctx` field and returns the
receiver, so the original logger `L` does not still report its prior
tag set: starting from a logger whose context holds the single tag
`t`, after `WithTags([u])` the logger's own context reports `[t, u]`,
not `[t]`. -/
theorem C8_counterexample_logger_mutated :
    getTagsVals
        (contextLoggerWithTags [[⟨"t", "v"⟩]] ⟨7, ⟨some ⟨0, 1, 1⟩⟩⟩ [⟨"u", "w"⟩]).1
        (contextLoggerWithTags [[⟨"t", "v"⟩]] ⟨7, ⟨some ⟨0, 1, 1⟩⟩⟩ [⟨"u", "w"⟩]).2.ctx =
      [⟨"t", "v"⟩, ⟨"u", "w"⟩] ∧
    getTagsVals [[⟨"t", "v"⟩]] (Ctx.mk (some ⟨0, 1, 1⟩)) = [⟨"t", "v"⟩] ∧
    ([⟨"t", "v"⟩, ⟨"u", "w"⟩] : List KeyValue) ≠ [⟨"t", "v"⟩] :=
  ⟨rfl, rfl, by decide⟩

/-- Claim C8 (amended): `ContextLogger.WithTags` extends the logger's
own context in place with the given tags and returns the same logger
(the same pointer, with the same logging capability); afterwards that
logger's context reports its prior tag sequence followed by the new
tags in order. -/
theorem C8_logger_withTags_extends_in_place (h : Heap)
    (cl : ContextLoggerState) (ts : List KeyValue)
    (hwf : WfCtx h cl.ctx) :
    getTagsVals (contextLoggerWithTags h cl ts).1
        (contextLoggerWithTags h cl ts).2.ctx =
      getTagsVals h cl.ctx ++ ts ∧
    (contextLoggerWithTags h cl ts).2.loggerId = cl.loggerId := by
  unfold contextLoggerWithTags
  exact ⟨withTags_vals h cl.ctx ts hwf, rfl⟩

/-- Witness for C8's amended theorem at a concrete logger state. -/
theorem C8_logger_withTags_extends_in_place_witness :
    WfCtx [[⟨"t", "v"⟩]] ⟨some ⟨0, 1, 1⟩⟩ ∧
    getTagsVals (contextLoggerWithTags [[⟨"t", "v"⟩]] ⟨7, ⟨some ⟨0, 1, 1⟩⟩⟩ [⟨"u", "w"⟩]).1
        (contextLoggerWithTags [[⟨"t", "v"⟩]] ⟨7, ⟨some ⟨0, 1, 1⟩⟩⟩ [⟨"u", "w"⟩]).2.ctx =
      getTagsVals [[⟨"t", "v"⟩]] (Ctx.mk (some ⟨0, 1, 1⟩)) ++ [⟨"u", "w"⟩] ∧
    (contextLoggerWithTags [[⟨"t", "v"⟩]] ⟨7, ⟨some ⟨0, 1, 1⟩⟩⟩ [⟨"u", "w"⟩]).2.loggerId = 7 :=
  ⟨by decide,
    (C8_logger_withTags_extends_in_place [[⟨"t", "v"⟩]] ⟨7, ⟨some ⟨0, 1, 1⟩⟩⟩
      [⟨"u", "w"⟩] (by decide)).1,
    (C8_logger_withTags_extends_in_place [[⟨"t", "v"⟩]] ⟨7, ⟨some ⟨0, 1, 1⟩⟩⟩
      [⟨"u", "w"⟩] (by decide)).2⟩

/-- Claim C9: `MergeContextTags` and `WithTags` applied to the same
context and tag list yield contexts reporting the same tag sequence
via `GetTagsFromContext` — the existing tags followed by the new tags
in argument order — even though one extends the stored slice with
`append` and the other fills a freshly allocated exactly-sized copy. -/
theorem C9_merge_semantically_equals_withTags (h : Heap) (c : Ctx)
    (ts : List KeyValue) (hwf : WfCtx h c) :
    getTagsVals (MergeContextTags h c ts).1 (MergeContextTags h c ts).2 =
      getTagsVals (WithTags h c ts).1 (WithTags h c ts).2 ∧
    getTagsVals (WithTags h c ts).1 (WithTags h c ts).2 =
      getTagsVals h c ++ ts := by
  have h1 := withTags_vals h c ts hwf
  have h2 := mergeContextTags_vals h c ts
  exact ⟨by rw [h1, h2], h1⟩

/-- Witness for C9 at a concrete context holding one tag. -/
theorem C9_merge_semantically_equals_withTags_witness :
    WfCtx [[⟨"k", "v"⟩]] ⟨some ⟨0, 1, 1⟩⟩ ∧
    (getTagsVals
        (MergeContextTags [[⟨"k", "v"⟩]] ⟨some ⟨0, 1, 1⟩⟩ [⟨"n", "w"⟩]).1
        (MergeContextTags [[⟨"k", "v"⟩]] ⟨some ⟨0, 1, 1⟩⟩ [⟨"n", "w"⟩]).2 =
      getTagsVals
        (WithTags [[⟨"k", "v"⟩]] ⟨some ⟨0, 1, 1⟩⟩ [⟨"n", "w"⟩]).1
        (WithTags [[⟨"k", "v"⟩]] ⟨some ⟨0, 1, 1⟩⟩ [⟨"n", "w"⟩]).2) :=
  ⟨by decide,
    (C9_merge_semantically_equals_withTags [[⟨"k", "v"⟩]] ⟨some ⟨0, 1, 1⟩⟩
      [⟨"n", "w"⟩] (by decide)).1⟩

/-! ## Claims about the span helpers -/

/-- Claim C2: for every span name, tag list and wrapped function `fn`
(modelled by its returned error): when `fn` returns a non-nil error,
`WithSpan` records that error on the span, sets the span status to
Error with the error's message, ends the span exactly once, and
returns the same error unchanged; when `fn` returns nil, it sets the
status to Ok, ends the span exactly once, and returns nil — for the
`tracingHelper` method and the package-level function alike. -/
theorem C2_withSpan_error_and_ok (name : String) (tags : List KeyValue)
    (e : String) :
    (helperWithSpan name tags (.ret (some e))).2 = .ret (some e) ∧
    (helperWithSpan name tags (.ret (some e))).1.recordedErrors = [e] ∧
    (helperWithSpan name tags (.ret (some e))).1.finalStatus =
      some (.error, e) ∧
    (helperWithSpan name tags (.ret (some e))).1.endCount = 1 ∧
    (helperWithSpan name tags (.ret none)).2 = .ret none ∧
    (helperWithSpan name tags (.ret none)).1.finalStatus = some (.ok, "") ∧
    (helperWithSpan name tags (.ret none)).1.endCount = 1 ∧
    (packageWithSpan name tags (.ret (some e))).2 = .ret (some e) ∧
    (packageWithSpan name tags (.ret (some e))).1.recordedErrors = [e] ∧
    (packageWithSpan name tags (.ret (some e))).1.finalStatus =
      some (.error, e) ∧
    (packageWithSpan name tags (.ret (some e))).1.endCount = 1 ∧
    (packageWithSpan name tags (.ret none)).2 = .ret none ∧
    (packageWithSpan name tags (.ret none)).1.finalStatus = some (.ok, "") ∧
    (packageWithSpan name tags (.ret none)).1.endCount = 1 := by
  unfold helperWithSpan packageWithSpan startSpanWithTags packageStartSpan
  by_cases htag : tags.length > 0 <;>
    simp [htag, SpanState.start, SpanState.setAttributes, SpanState.setStatus,
      SpanState.recordError, SpanState.endSpan, SpanState.endCount,
      SpanState.recordedErrors, SpanState.finalStatus, SpanState.statusTrace,
      List.count_cons, List.count_nil]

/-! ## Claims about the request middleware -/

/-- Claim C3: `shouldSkip` is exact, case-sensitive string equality
against the configured excluded paths; for a request whose path is in
that set the middleware produces no span, no metric record and no log
line and invokes the downstream handler directly, its writer calls and
outcome returned unchanged; a request whose path is not in the set is
instrumented (a span is opened, logs are emitted, and the handler
still runs with its writes forwarded). -/
theorem C3_excluded_path_exact_skip (config : MiddlewareConfig)
    (r : Request) (handler : HandlerBehavior) (d : Int) :
    (shouldSkip r.path config.skipPaths = true ↔
      r.path ∈ config.skipPaths) ∧
    (r.path ∈ config.skipPaths →
      runHTTPMiddleware config r handler d =
        ⟨none, [], [], true, none, handler.ops, handler.outcome⟩) ∧
    (r.path ∉ config.skipPaths →
      (runHTTPMiddleware config r handler d).span.isSome = true ∧
      (runHTTPMiddleware config r handler d).logs ≠ [] ∧
      (runHTTPMiddleware config r handler d).handlerExecuted = true ∧
      (runHTTPMiddleware config r handler d).clientOps = handler.ops) := by
  have hiff : shouldSkip r.path config.skipPaths = true ↔
      r.path ∈ config.skipPaths := by
    unfold shouldSkip
    rw [List.any_eq_true]
    constructor
    · rintro ⟨x, hx, he⟩
      rw [beq_iff_eq] at he
      rwa [he]
    · intro hm
      exact ⟨r.path, hm, by simp⟩
  refine ⟨hiff, ?_, ?_⟩
  · intro hmem
    have hskip : shouldSkip r.path config.skipPaths = true := hiff.mpr hmem
    unfold runHTTPMiddleware
    rw [hskip]
    simp
  · intro hmem
    have hskip : shouldSkip r.path config.skipPaths = false := by
      rcases Bool.eq_false_or_eq_true (shouldSkip r.path config.skipPaths) with ht | hf
      · exact absurd (hiff.mp ht) hmem
      · exact hf
    unfold runHTTPMiddleware
    rw [hskip]
    cases ho : handler.outcome <;> simp [ho]

def c3Cfg : MiddlewareConfig := DefaultMiddlewareConfig "svc"

def c3ReqSkip : Request := ⟨"GET", "http://h/health", "/health", "ua", "1.2.3.4", 10⟩

/-- Path differing from `/health` only in case: instrumented normally. -/
def c3ReqCase : Request := ⟨"GET", "http://h/Health", "/Health", "ua", "1.2.3.4", 10⟩

def c3Handler : HandlerBehavior := ⟨[.writeHeader 204], .ret ()⟩

/-- Witness for C3: `/health` is skipped entirely; `/Health` (case
difference) is instrumented. -/
theorem C3_excluded_path_exact_skip_witness :
    c3ReqSkip.path ∈ c3Cfg.skipPaths ∧
    runHTTPMiddleware c3Cfg c3ReqSkip c3Handler 2 =
      ⟨none, [], [], true, none, c3Handler.ops, c3Handler.outcome⟩ ∧
    c3ReqCase.path ∉ c3Cfg.skipPaths ∧
    (runHTTPMiddleware c3Cfg c3ReqCase c3Handler 2).span.isSome = true ∧
    (runHTTPMiddleware c3Cfg c3ReqCase c3Handler 2).logs ≠ [] :=
  ⟨by decide,
    (C3_excluded_path_exact_skip c3Cfg c3ReqSkip c3Handler 2).2.1 (by decide),
    by decide,
    ((C3_excluded_path_exact_skip c3Cfg c3ReqCase c3Handler 2).2.2 (by decide)).1,
    ((C3_excluded_path_exact_skip c3Cfg c3ReqCase c3Handler 2).2.2 (by decide)).2.1⟩

/-- Claim C4: for every instrumented request that returns normally,
the span's final status is Error with the message `HTTP <code>`
exactly when the final status code is ≥ 400, and Ok (empty message)
when it is < 400 — in the generic HTTP adapter (status captured by
the wrapper) and in the Gin adapter (status read from the writer)
alike. -/
theorem C4_error_status_threshold (config : MiddlewareConfig) (r : Request)
    (handler : HandlerBehavior) (g : GinHandlerBehavior) (d : Int)
    (hskip : shouldSkip r.path config.skipPaths = false)
    (hret : handler.outcome = .ret ()) :
    ((runHTTPMiddleware config r handler d).span.map SpanState.finalStatus) =
      some (some (
        if 400 ≤ (handler.ops.foldl applyWriterOp ⟨200, 0⟩).statusCode then
          (OtelCode.error,
            "HTTP " ++ toString (handler.ops.foldl applyWriterOp ⟨200, 0⟩).statusCode)
        else (OtelCode.ok, ""))) ∧
    ((runGinMiddleware config r g d).span.map SpanState.finalStatus) =
      some (some (
        if 400 ≤ g.status then
          (OtelCode.error, "HTTP " ++ toString g.status)
        else (OtelCode.ok, ""))) := by
  constructor
  · unfold runHTTPMiddleware
    rw [hskip]
    by_cases hst : 400 ≤ (handler.ops.foldl applyWriterOp ⟨200, 0⟩).statusCode <;>
      simp [hret, hst, SpanState.finalStatus, SpanState.statusTrace,
        SpanState.start, SpanState.setAttributes, SpanState.setStatus,
        SpanState.endSpan]
  · unfold runGinMiddleware
    rw [hskip]
    by_cases hst : 400 ≤ g.status <;>
      simp [hst, SpanState.finalStatus, SpanState.statusTrace,
        SpanState.start, SpanState.setAttributes, SpanState.setStatus,
        SpanState.endSpan]

def c4Req : Request := ⟨"GET", "http://h/a", "/a", "ua", "ip", 0⟩

def c4Handler404 : HandlerBehavior := ⟨[.writeHeader 404, .write [1]], .ret ()⟩

def c4Handler200 : HandlerBehavior := ⟨[.write [1, 2]], .ret ()⟩

/-- Witness for C4: a handler writing 404 yields span status Error
with message `HTTP 404`; a handler that only writes bytes (status 200)
yields Ok; a Gin handler with status 500 yields Error. -/
theorem C4_error_status_threshold_witness :
    ((runHTTPMiddleware c3Cfg c4Req c4Handler404 1).span.map
        SpanState.finalStatus) = some (some (OtelCode.error, "HTTP 404")) ∧
    ((runHTTPMiddleware c3Cfg c4Req c4Handler200 1).span.map
        SpanState.finalStatus) = some (some (OtelCode.ok, "")) ∧
    ((runGinMiddleware c3Cfg c4Req ⟨500, 3⟩ 1).span.map
        SpanState.finalStatus) = some (some (OtelCode.error, "HTTP 500")) :=
  ⟨(C4_error_status_threshold c3Cfg c4Req c4Handler404 ⟨500, 3⟩ 1 rfl rfl).1,
    (C4_error_status_threshold c3Cfg c4Req c4Handler200 ⟨500, 3⟩ 1 rfl rfl).1,
    (C4_error_status_threshold c3Cfg c4Req c4Handler200 ⟨500, 3⟩ 1 rfl rfl).2⟩

/-- Claim C5: in the Echo adapter, a handler returning a non-nil error
makes the middleware set the span status to Error and record the error
on the span — for every status code, in particular codes below 400 —
and the same error value is returned to the adapter's caller
unchanged. -/
theorem C5_echo_error_forces_error_status (config : MiddlewareConfig)
    (r : Request) (eh : EchoHandlerBehavior) (d : Int) (e : String)
    (hskip : shouldSkip r.path config.skipPaths = false)
    (herr : eh.err = some e) :
    (runEchoMiddleware config r eh d).returned = some e ∧
    ((runEchoMiddleware config r eh d).span.map SpanState.finalStatus) =
      some (some (OtelCode.error, "HTTP " ++ toString eh.status)) ∧
    ((runEchoMiddleware config r eh d).span.map SpanState.recordedErrors) =
      some [e] := by
  unfold runEchoMiddleware
  rw [hskip]
  simp [herr, SpanState.finalStatus, SpanState.statusTrace, SpanState.start,
    SpanState.setAttributes, SpanState.setStatus, SpanState.recordError,
    SpanState.recordedErrors, SpanState.endSpan]

/-- Witness for C5: an Echo handler with status 200 (below 400) that
returns error `boom`: span status Error `HTTP 200`, error recorded,
`boom` passed through. -/
theorem C5_echo_error_forces_error_status_witness :
    (runEchoMiddleware c3Cfg c4Req ⟨200, 5, some "boom"⟩ 1).returned =
      some "boom" ∧
    ((runEchoMiddleware c3Cfg c4Req ⟨200, 5, some "boom"⟩ 1).span.map
        SpanState.finalStatus) = some (some (OtelCode.error, "HTTP 200")) ∧
    ((runEchoMiddleware c3Cfg c4Req ⟨200, 5, some "boom"⟩ 1).span.map
        SpanState.recordedErrors) = some ["boom"] :=
  ⟨(C5_echo_error_forces_error_status c3Cfg c4Req ⟨200, 5, some "boom"⟩ 1
      "boom" rfl rfl).1,
    (C5_echo_error_forces_error_status c3Cfg c4Req ⟨200, 5, some "boom"⟩ 1
      "boom" rfl rfl).2.1,
    (C5_echo_error_forces_error_status c3Cfg c4Req ⟨200, 5, some "boom"⟩ 1
      "boom" rfl rfl).2.2⟩

/-- Appending an `End` to a span with no prior `End` makes it ended
exactly once, with `End` the last operation. -/
lemma endedOnceLast_endSpan (s : SpanState) (h : s.endCount = 0) :
    s.endSpan.endedOnceLast := by
  unfold SpanState.endedOnceLast SpanState.endSpan SpanState.endCount at *
  constructor
  · simp [List.count_append, h]
  · simp

def c6PanicHandler : HandlerBehavior := ⟨[.write [1]], .panicked⟩

def c6Req : Request := ⟨"GET", "http://h/p", "/p", "ua", "ip", 0⟩

/-- Claim C6 (counterexample): `HTTPMiddleware` calls `span.End()` at
the end of the handler function instead of deferring it, so on a
panic-equivalent exit of the downstream handler the request span is
never ended: at this concrete instrumented request whose handler
panics, the span's end count is 0, not 1. -/
theorem C6_counterexample_panic_span_not_ended :
    ((runHTTPMiddleware c3Cfg c6Req c6PanicHandler 1).span.map
        SpanState.endCount) = some 0 := rfl

/-- Claim C6 (amended): every span opened by the request
instrumentation is ended exactly once, after all annotation calls, on
every normal-return exit path (the HTTP middleware does not end its
span when the handler panics, since its `End` is not deferred); the
span-scoped execution helpers end their span exactly once on every
exit — normal return with or without error, and panic alike — with
the end call last. -/
theorem C6_span_ended_once_after_annotations (config : MiddlewareConfig)
    (r : Request) (handler : HandlerBehavior) (g : GinHandlerBehavior)
    (eh : EchoHandlerBehavior) (d : Int) (name : String)
    (tags : List KeyValue) (o : Outcome (Option String))
    (hskip : shouldSkip r.path config.skipPaths = false)
    (hret : handler.outcome = .ret ()) :
    (∃ s, (runHTTPMiddleware config r handler d).span = some s ∧
      s.endedOnceLast) ∧
    (helperWithSpan name tags o).1.endedOnceLast ∧
    (packageWithSpan name tags o).1.endedOnceLast ∧
    (∃ s, (runGinMiddleware config r g d).span = some s ∧
      s.endedOnceLast) ∧
    (∃ s, (runEchoMiddleware config r eh d).span = some s ∧
      s.endedOnceLast) := by
  refine ⟨?_, ?_, ?_, ?_, ?_⟩
  · unfold runHTTPMiddleware
    rw [hskip]
    by_cases hst : 400 ≤ (handler.ops.foldl applyWriterOp ⟨200, 0⟩).statusCode <;>
      simp only [hret, hst, Bool.false_eq_true, if_false, if_true, ite_true,
        ite_false, reduceIte] <;>
      exact ⟨_, rfl, endedOnceLast_endSpan _ (by
        simp [SpanState.endCount, SpanState.setAttributes, SpanState.setStatus,
          SpanState.start, List.count_append, List.count_cons])⟩
  · unfold helperWithSpan startSpanWithTags
    rcases o with e | _
    · rcases e with _ | e <;>
        by_cases htag : tags.length > 0 <;>
          simp only [htag, if_true, if_false, ite_true, ite_false, reduceIte] <;>
          exact endedOnceLast_endSpan _ (by
            simp [SpanState.endCount, SpanState.setAttributes,
              SpanState.setStatus, SpanState.recordError, SpanState.start,
              List.count_append, List.count_cons])
    · by_cases htag : tags.length > 0 <;>
        simp only [htag, if_true, if_false, ite_true, ite_false, reduceIte] <;>
        exact endedOnceLast_endSpan _ (by
          simp [SpanState.endCount, SpanState.setAttributes, SpanState.start,
            List.count_append, List.count_cons])
  · unfold packageWithSpan packageStartSpan
    rcases o with e | _
    · rcases e with _ | e <;>
        by_cases htag : tags.length > 0 <;>
          simp only [htag, if_true, if_false, ite_true, ite_false, reduceIte] <;>
          exact endedOnceLast_endSpan _ (by
            simp [SpanState.endCount, SpanState.setAttributes,
              SpanState.setStatus, SpanState.recordError, SpanState.start,
              List.count_append, List.count_cons])
    · by_cases htag : tags.length > 0 <;>
        simp only [htag, if_true, if_false, ite_true, ite_false, reduceIte] <;>
        exact endedOnceLast_endSpan _ (by
          simp [SpanState.endCount, SpanState.setAttributes, SpanState.start,
            List.count_append, List.count_cons])
  · unfold runGinMiddleware
    rw [hskip]
    by_cases hst : 400 ≤ g.status <;>
      simp only [hst, if_true, if_false, ite_true, ite_false, reduceIte] <;>
      exact ⟨_, rfl, endedOnceLast_endSpan _ (by
        simp [SpanState.endCount, SpanState.setAttributes, SpanState.setStatus,
          SpanState.start, List.count_append, List.count_cons])⟩
  · unfold runEchoMiddleware
    rw [hskip]
    rcases he : eh.err with _ | e <;>
      by_cases hst : 400 ≤ eh.status <;>
        simp [he, hst, SpanState.endedOnceLast, SpanState.endCount,
          SpanState.endSpan, SpanState.setAttributes, SpanState.setStatus,
          SpanState.recordError, SpanState.start, List.count_append,
          List.count_cons]

/-- Witness for C6's amended theorem at a concrete instrumented
request and helper invocations. -/
theorem C6_span_ended_once_after_annotations_witness :
    (∃ s, (runHTTPMiddleware c3Cfg c4Req c4Handler200 1).span = some s ∧
      s.endedOnceLast) ∧
    (helperWithSpan "op" [] Outcome.panicked).1.endedOnceLast :=
  ⟨(C6_span_ended_once_after_annotations c3Cfg c4Req c4Handler200 ⟨200, 0⟩
      ⟨200, 0, none⟩ 1 "op" [] .panicked rfl rfl).1,
    (C6_span_ended_once_after_annotations c3Cfg c4Req c4Handler200 ⟨200, 0⟩
      ⟨200, 0, none⟩ 1 "op" [] .panicked rfl rfl).2.1⟩

/-- Claim C7: for every instrumented request that returns normally,
exactly one request-size record exists when the declared content
length is strictly positive and none otherwise (`-1`/unknown and `0`
record nothing), and exactly one response-size record exists when the
wrapper-measured written byte count is strictly positive and none
otherwise — never a zero-valued point. -/
theorem C7_size_metrics_iff_positive (config : MiddlewareConfig)
    (r : Request) (handler : HandlerBehavior) (d : Int)
    (hskip : shouldSkip r.path config.skipPaths = false)
    (hret : handler.outcome = .ret ()) :
    ((runHTTPMiddleware config r handler d).metrics.countP
        (fun m => m.name == "http_request_size_bytes")) =
      (if 0 < r.contentLength then 1 else 0) ∧
    ((runHTTPMiddleware config r handler d).metrics.countP
        (fun m => m.name == "http_response_size_bytes")) =
      (if 0 <
          ((handler.ops.foldl applyWriterOp ⟨200, 0⟩).responseSize : Int)
        then 1 else 0) := by
  unfold runHTTPMiddleware
  rw [hskip]
  by_cases hreq : (0 : Int) < r.contentLength <;>
    by_cases hresp : (0 : Int) <
        ((handler.ops.foldl applyWriterOp ⟨200, 0⟩).responseSize : Int) <;>
      simp [hret, hreq, hresp, List.countP_append, List.countP_cons]

def c7ReqUnknown : Request := ⟨"GET", "http://h/a", "/a", "ua", "ip", -1⟩

def c7ReqSized : Request := ⟨"POST", "http://h/a", "/a", "ua", "ip", 12⟩

def c7HandlerSilent : HandlerBehavior := ⟨[.writeHeader 204], .ret ()⟩

/-- Witness for C7: content length −1 with no bytes written records
neither size histogram; content length 12 with 2 bytes written records
each exactly once. -/
theorem C7_size_metrics_iff_positive_witness :
    ((runHTTPMiddleware c3Cfg c7ReqUnknown c7HandlerSilent 1).metrics.countP
        (fun m => m.name == "http_request_size_bytes")) = 0 ∧
    ((runHTTPMiddleware c3Cfg c7ReqUnknown c7HandlerSilent 1).metrics.countP
        (fun m => m.name == "http_response_size_bytes")) = 0 ∧
    ((runHTTPMiddleware c3Cfg c7ReqSized c4Handler200 1).metrics.countP
        (fun m => m.name == "http_request_size_bytes")) = 1 ∧
    ((runHTTPMiddleware c3Cfg c7ReqSized c4Handler200 1).metrics.countP
        (fun m => m.name == "http_response_size_bytes")) = 1 :=
  ⟨(C7_size_metrics_iff_positive c3Cfg c7ReqUnknown c7HandlerSilent 1
      rfl rfl).1,
    (C7_size_metrics_iff_positive c3Cfg c7ReqUnknown c7HandlerSilent 1
      rfl rfl).2,
    (C7_size_metrics_iff_positive c3Cfg c7ReqSized c4Handler200 1
      rfl rfl).1,
    (C7_size_metrics_iff_positive c3Cfg c7ReqSized c4Handler200 1
      rfl rfl).2⟩

/-- Whether a writer call is a `WriteHeader` call. -/
def WriterOp.isHeaderCall : WriterOp → Bool
  | .writeHeader _ => true
  | .write _ => false

/-- Bytes a writer call contributes to the response body. -/
def WriterOp.bytesWritten : WriterOp → Nat
  | .writeHeader _ => 0
  | .write b => b.length

/-- Folding writer calls that never call `WriteHeader` leaves the
wrapper's status code unchanged. -/
lemma foldl_writer_statusCode (ops : List WriterOp) (w : RespWriter)
    (hno : ops.all (fun op => ! op.isHeaderCall) = true) :
    (ops.foldl applyWriterOp w).statusCode = w.statusCode := by
  induction ops generalizing w with
  | nil => rfl
  | cons op rest ih =>
    cases op with
    | writeHeader c => simp [WriterOp.isHeaderCall] at hno
    | write b =>
      simp only [List.all_cons, WriterOp.isHeaderCall, Bool.not_false,
        Bool.true_and] at hno
      rw [List.foldl_cons]
      exact ih (applyWriterOp w (.write b)) hno

/-- The wrapper's response size after the handler is the initial size
plus the total bytes written. -/
lemma foldl_writer_responseSize (ops : List WriterOp) (w : RespWriter) :
    (ops.foldl applyWriterOp w).responseSize =
      w.responseSize + (ops.map WriterOp.bytesWritten).sum := by
  induction ops generalizing w with
  | nil => simp
  | cons op rest ih =>
    cases op with
    | writeHeader c =>
      rw [List.foldl_cons, ih]
      simp [applyWriterOp, WriterOp.bytesWritten]
    | write b =>
      rw [List.foldl_cons, ih]
      simp [applyWriterOp, WriterOp.bytesWritten]
      omega

/-- Claim C10: for every instrumented request whose handler returns
normally and never calls `WriteHeader`, the wrapper reports the
initial status 200 and a response size equal to the sum of the
lengths of all byte slices written through it; the span ends Ok, and
the request counter and duration histogram records carry the status
attribute 200. -/
theorem C10_default_status_ok (config : MiddlewareConfig) (r : Request)
    (handler : HandlerBehavior) (d : Int)
    (hskip : shouldSkip r.path config.skipPaths = false)
    (hret : handler.outcome = .ret ())
    (hnowh : handler.ops.all (fun op => ! op.isHeaderCall) = true) :
    (runHTTPMiddleware config r handler d).wrapper =
      some ⟨200, (handler.ops.map WriterOp.bytesWritten).sum⟩ ∧
    ((runHTTPMiddleware config r handler d).span.map SpanState.finalStatus) =
      some (some (OtelCode.ok, "")) ∧
    MetricEvent.mk "http_requests_total" 1
        [⟨"method", r.method⟩, ⟨"path", r.path⟩, ⟨"status", "200"⟩] ∈
      (runHTTPMiddleware config r handler d).metrics ∧
    MetricEvent.mk "http_request_duration_seconds" d
        [⟨"method", r.method⟩, ⟨"path", r.path⟩, ⟨"status", "200"⟩] ∈
      (runHTTPMiddleware config r handler d).metrics := by
  have hww : handler.ops.foldl applyWriterOp ⟨200, 0⟩ =
      RespWriter.mk 200 ((handler.ops.map WriterOp.bytesWritten).sum) := by
    have h1 := foldl_writer_statusCode handler.ops ⟨200, 0⟩ hnowh
    have h2 := foldl_writer_responseSize handler.ops ⟨200, 0⟩
    cases hfold : handler.ops.foldl applyWriterOp (⟨200, 0⟩ : RespWriter)
    rw [hfold] at h1 h2
    simp at h1 h2
    simp [h1, h2]
  have h200 : toString (200 : Nat) = "200" := rfl
  unfold runHTTPMiddleware
  rw [hskip]
  simp only [hret, hww]
  refine ⟨rfl, ?_, ?_, ?_⟩
  · simp [SpanState.finalStatus, SpanState.statusTrace, SpanState.start,
      SpanState.setAttributes, SpanState.setStatus, SpanState.endSpan, h200]
  · simp [h200, List.mem_append]
  · simp [h200, List.mem_append]

def c10Handler : HandlerBehavior := ⟨[.write [1, 2, 3], .write [4]], .ret ()⟩

/-- Witness for C10: a handler writing 3 then 1 bytes and never
calling `WriteHeader` leaves the wrapper at status 200 with size 4;
span Ok; counter and duration records carry status 200. -/
theorem C10_default_status_ok_witness :
    (runHTTPMiddleware c3Cfg c4Req c10Handler 1).wrapper = some ⟨200, 4⟩ ∧
    ((runHTTPMiddleware c3Cfg c4Req c10Handler 1).span.map
        SpanState.finalStatus) = some (some (OtelCode.ok, "")) ∧
    MetricEvent.mk "http_requests_total" 1
        [⟨"method", "GET"⟩, ⟨"path", "/a"⟩, ⟨"status", "200"⟩] ∈
      (runHTTPMiddleware c3Cfg c4Req c10Handler 1).metrics :=
  ⟨(C10_default_status_ok c3Cfg c4Req c10Handler 1 rfl rfl rfl).1,
    (C10_default_status_ok c3Cfg c4Req c10Handler 1 rfl rfl rfl).2.1,
    (C10_default_status_ok c3Cfg c4Req c10Handler 1 rfl rfl rfl).2.2.1⟩

end Graftel
